import Mathlib

/-!
Shallow embedding of the redux-pack core (`src/middleware.js`: the promise
middleware `handlePromise`/`middleware` with its event hooks, and the
lifecycle dispatcher `handle`/`safeMap`/`verifyHandlers`, together with the
string constants of `constants.js`).

Modelling conventions:
* JS values that may be `undefined` are `Option V` for a type parameter `V`.
* The `meta` object is a structured record `ActionMeta`: the reserved keys
  (`redux-pack/LIFECYCLE`, `redux-pack/TRANSACTION`, `startPayload`, and the
  four event-hook slots) are explicit optional fields, and all other
  caller-supplied entries are the opaque association list `extra`.  The JS
  spread `{...meta, k: v}` is the record update `{m with k := v}`; property
  lookup on a plain object is plain field access (prototype-chain lookups are
  out of scope of the embedding).
* A caller-supplied event hook is not modelled as an actual function but by
  its observable behaviour: `HookSlot.fnHook throws` is a function value that
  either returns normally or throws when invoked, `HookSlot.nonFnHook` is any
  non-function value stored in the slot.
* The middleware's observable behaviour is a trace of `Event`s:
  `handlePromise` yields the events that happen synchronously before it
  returns (`syncEvents`), the events that happen once the promise settles
  with a given `Outcome` (`settleEvents`), and the value with which the
  promise returned to the caller resolves (`resolution`).  `promise.then
  (success, failure)` invokes exactly one of the two continuations, so the
  settlement is a single `Outcome` value.
* `uuid.v4()` is non-deterministic; the generated transaction identifier is
  the explicit parameter `tid`.
* Thrown JS errors (`invariant`, `throw new Error`) are `Except.error` with a
  structured `HandleErr` carrying the data interpolated into the message.
* `process.env.NODE_ENV` is the parameter `env : Option String`
  (`none` = variable unset).
-/

namespace ReduxPack

/-- Constant from `constants.js`: `KEY.LIFECYCLE = 'redux-pack/LIFECYCLE'`. -/
def KEY.LIFECYCLE : String := "redux-pack/LIFECYCLE"

/-- Constant from `constants.js`: `KEY.TRANSACTION = 'redux-pack/TRANSACTION'`. -/
def KEY.TRANSACTION : String := "redux-pack/TRANSACTION"

/-- Constant from `constants.js`: `LIFECYCLE.START = 'start'`. -/
def LIFECYCLE.START : String := "start"

/-- Constant from `constants.js`: `LIFECYCLE.SUCCESS = 'success'`. -/
def LIFECYCLE.SUCCESS : String := "success"

/-- Constant from `constants.js`: `LIFECYCLE.FAILURE = 'failure'`. -/
def LIFECYCLE.FAILURE : String := "failure"

/-- Settlement of a thenable: fulfilled with `data` or rejected with `error`
(either value may be `undefined`, hence `Option V`). -/
inductive Outcome (V : Type) where
  | fulfilled (data : Option V)
  | rejected (error : Option V)
deriving DecidableEq

/-- The value stored in an action's `promise` field.  `isPromise` in
`middleware.js` accepts exactly the thenables (truthy values whose `then`
property is a function); every other value is `notThenable`. -/
inductive PromiseField (V : Type) where
  | thenable (outcome : Outcome V)
  | notThenable
deriving DecidableEq

/-- A value stored in one of the four event-hook slots of `meta`
(`onStart`, `onSuccess`, `onFailure`, `onFinish`): either a function —
which, when invoked, returns normally or throws (`throws`) — or any
non-function value. -/
inductive HookSlot (V : Type) where
  | fnHook (throws : Bool)
  | nonFnHook
deriving DecidableEq

/-- The `meta` object of an action.  Reserved keys are explicit optional
fields (`none` = key absent); `extra` holds every other caller-supplied
entry.  `startPayload : Option (Option V)` distinguishes the key being
absent (`none`) from present with value `undefined` (`some none`). -/
structure ActionMeta (V : Type) where
  extra : List (String × V)
  onStart : Option (HookSlot V)
  onSuccess : Option (HookSlot V)
  onFailure : Option (HookSlot V)
  onFinish : Option (HookSlot V)
  lifecycle : Option String
  transaction : Option String
  startPayload : Option (Option V)
deriving DecidableEq

/-- The meta object `{}` (used for the spread `{...meta, ...}` when the
original action has no `meta`). -/
def ActionMeta.empty (V : Type) : ActionMeta V :=
  ⟨[], none, none, none, none, none, none, none⟩

/-- A redux action as the middleware and the dispatcher see it: `type`,
possibly-undefined `payload`, optional `promise` field, optional `error`
flag, optional `meta` object. -/
structure Action (V : Type) where
  type : String
  payload : Option V
  promise : Option (PromiseField V)
  error : Option Bool
  meta : Option (ActionMeta V)
deriving DecidableEq

/-- Source `middleware.js`, `isPromise`: `!!obj && typeof obj.then === 'function'`. -/
def isPromise {V : Type} : Option (PromiseField V) → Bool
  | some (.thenable _) => true
  | _ => false

/-- Property access `meta[hook]` for the four event-hook names handled by
`handleEventHook`. -/
def ActionMeta.hookField {V : Type} (m : ActionMeta V) (hook : String) :
    Option (HookSlot V) :=
  if hook = "onStart" then m.onStart
  else if hook = "onSuccess" then m.onSuccess
  else if hook = "onFailure" then m.onFailure
  else if hook = "onFinish" then m.onFinish
  else none

/-- The first argument an event hook is invoked with (the second is always
`getState`): a possibly-undefined value, or the boolean passed to
`onFinish`. -/
inductive HookArg (V : Type) where
  | val (v : Option V)
  | flag (b : Bool)
deriving DecidableEq

/-- One observable step of the middleware: a `store.dispatch` of a derived
action, an event-hook invocation with its first argument, or the
`console.error` logging of an exception a hook threw. -/
inductive Event (V : Type) where
  | dispatched (a : Action V)
  | hookCalled (hook : String) (arg : HookArg V)
  | errorLogged (hook : String)
deriving DecidableEq

/-- Source `middleware.js`, `handleEventHook(meta, hook, ...args)`: if `meta` exists
and `meta[hook]` is a function, invoke it inside `try..catch`, logging (and
swallowing) anything it throws; otherwise do nothing. -/
def handleEventHook {V : Type} (meta : Option (ActionMeta V)) (hook : String)
    (arg : HookArg V) : List (Event V) :=
  match meta with
  | none => []
  | some m =>
    match m.hookField hook with
    | some (.fnHook throws) =>
        .hookCalled hook arg :: (if throws then [.errorLogged hook] else [])
    | _ => []

/-- The base of the meta spread `{...meta, ...}`: the original meta, or `{}`
when the action has none. -/
def baseMeta {V : Type} (a : Action V) : ActionMeta V :=
  a.meta.getD (ActionMeta.empty V)

/-- The START action dispatched synchronously by `handlePromise`:
`{type, payload, meta: {...meta, [KEY.LIFECYCLE]: LIFECYCLE.START,
[KEY.TRANSACTION]: transactionId}}`. -/
def startAction {V : Type} (a : Action V) (tid : String) : Action V :=
  { type := a.type
    payload := a.payload
    promise := none
    error := none
    meta := some { baseMeta a with
      lifecycle := some LIFECYCLE.START
      transaction := some tid } }

/-- The SUCCESS action dispatched by the `success` continuation:
`{type, payload: data, meta: {...meta, startPayload,
[KEY.LIFECYCLE]: LIFECYCLE.SUCCESS, [KEY.TRANSACTION]: transactionId}}`. -/
def successAction {V : Type} (a : Action V) (tid : String) (data : Option V) :
    Action V :=
  { type := a.type
    payload := data
    promise := none
    error := none
    meta := some { baseMeta a with
      startPayload := some a.payload
      lifecycle := some LIFECYCLE.SUCCESS
      transaction := some tid } }

/-- The FAILURE action dispatched by the `failure` continuation:
`{type, payload: error, error: true, meta: {...meta, startPayload,
[KEY.LIFECYCLE]: LIFECYCLE.FAILURE, [KEY.TRANSACTION]: transactionId}}`. -/
def failureAction {V : Type} (a : Action V) (tid : String) (error : Option V) :
    Action V :=
  { type := a.type
    payload := error
    promise := none
    error := some true
    meta := some { baseMeta a with
      startPayload := some a.payload
      lifecycle := some LIFECYCLE.FAILURE
      transaction := some tid } }

/-- The value with which the promise `handlePromise` returns resolves: the
`success` continuation returns `{payload: data}`, the `failure` continuation
returns `{error: true, payload: error}`.  Both continuations return
normally, so the returned promise always resolves, never rejects. -/
inductive Resolution (V : Type) where
  | payloadOnly (payload : Option V)
  | errorAndPayload (payload : Option V)
deriving DecidableEq

/-- The observable behaviour of one `handlePromise` call: the events that
happen synchronously before the call returns, the events that happen once
the promise settles with a given outcome, and the resolution of the promise
the call returns.  `syncEvents` strictly precede the call returning and any
settlement; for the single settlement that occurs, `settleEvents` lists the
events in order. -/
structure PromiseRun (V : Type) where
  syncEvents : List (Event V)
  settleEvents : Outcome V → List (Event V)
  resolution : Outcome V → Resolution V

/-- Source `middleware.js`, `handlePromise(dispatch, getState, action)` with the
freshly generated `uuid.v4()` made the explicit parameter `tid`.
Synchronously: dispatch the START action, then run the `onStart` hook with
`(payload, getState)`.  On fulfillment with `data`: dispatch the SUCCESS
action, run `onSuccess(data, getState)`, run `onFinish(true, getState)`, and
resolve the returned promise with `{payload: data}`.  On rejection with
`error`: dispatch the FAILURE action, run `onFailure(error, getState)`, run
`onFinish(false, getState)`, and resolve the returned promise with
`{error: true, payload: error}`. -/
def handlePromise {V : Type} (tid : String) (a : Action V) : PromiseRun V :=
  { syncEvents :=
      .dispatched (startAction a tid) ::
        handleEventHook a.meta "onStart" (.val a.payload)
    settleEvents := fun o =>
      match o with
      | .fulfilled data =>
          .dispatched (successAction a tid data) ::
            (handleEventHook a.meta "onSuccess" (.val data) ++
              handleEventHook a.meta "onFinish" (.flag true))
      | .rejected error =>
          .dispatched (failureAction a tid error) ::
            (handleEventHook a.meta "onFailure" (.val error) ++
              handleEventHook a.meta "onFinish" (.flag false))
    resolution := fun o =>
      match o with
      | .fulfilled data => .payloadOnly data
      | .rejected error => .errorAndPayload error }

/-- What one middleware invocation does with an incoming action. -/
inductive MWResult (V : Type) where
  | nullResult
  | intercepted (run : PromiseRun V)
  | passedToNext (a : Action V)

/-- Source `middleware.js`, `middleware = store => next => action => ...`: `null`
and `undefined` actions return `null`; an action whose `promise` field is a
thenable is handed to `handlePromise` (whose return value is returned); any
other action is passed unchanged to `next`, returning its result. -/
def middleware {V : Type} (tid : String) (action : Option (Action V)) :
    MWResult V :=
  match action with
  | none => .nullResult
  | some a =>
      if isPromise a.promise then .intercepted (handlePromise tid a)
      else .passedToNext a

/-- The actions passed to `store.dispatch` within a list of events, in
order. -/
def dispatchesOf {V : Type} (es : List (Event V)) : List (Action V) :=
  es.filterMap fun e =>
    match e with
    | .dispatched x => some x
    | _ => none

/-- A value stored under a key of a handler table: a function from
`(state, action)` to a new state (`none` models the function returning
`undefined`), the value `undefined` itself, or any other non-function value
(`tname` is its `typeof`, interpolated into the error message). -/
inductive HSlot (S V : Type) where
  | hfn (f : S → Action V → Option S)
  | hundef
  | hnonFn (tname : String)

/-- A handler table: the object's own enumerable keys in order, each with
its value.  JS object keys are distinct. -/
def HandlerTable (S V : Type) : Type := List (String × HSlot S V)

/-- The errors thrown by `handle.js` (`invariant` / the data interpolated
into each message). -/
inductive HandleErr where
  | invalidKey (key : String) (actionType : String)
  | expectedNewState (name : String) (actionType : String)
  | expectedFunction (name : String) (tname : String) (actionType : String)
  | notPackAction (actionType : String)
deriving DecidableEq

/-- Source `handle.js`, `VALID_KEYS` (its own keys, in order). -/
def VALID_KEYS : List String :=
  ["start", "success", "failure", "finish", "always"]

/-- Source `handle.js`, `verifyHandlers(handlers, action)`: walk the table's keys in
order and throw on the first one that is not a valid redux-pack handler
key. -/
def verifyHandlers {S V : Type} (handlers : HandlerTable S V)
    (a : Action V) : Except HandleErr Unit :=
  match handlers with
  | [] => .ok ()
  | (k, _) :: rest =>
      if k ∈ VALID_KEYS then verifyHandlers rest a
      else .error (.invalidKey k a.type)

/-- Property access `handlers.name` on the table: the value under the key,
or `undefined` when the key is absent. -/
def hlookup {S V : Type} (handlers : HandlerTable S V) (k : String) :
    Option (HSlot S V) :=
  (handlers.find? fun p => p.1 == k).map Prod.snd

/-- Source `handle.js`, `safeMap(state, fn, action, name)`: a function slot is
invoked with `(state, action)` and must not return `undefined`; an
`undefined` slot (absent key or explicit `undefined`) passes the state
through; any other value throws. -/
def safeMap {S V : Type} (state : S) (fn : Option (HSlot S V))
    (a : Action V) (name : String) : Except HandleErr S :=
  match fn with
  | some (.hfn f) =>
      match f state a with
      | some result => .ok result
      | none => .error (.expectedNewState name a.type)
  | some .hundef => .ok state
  | none => .ok state
  | some (.hnonFn tname) => .error (.expectedFunction name tname a.type)

/-- The expression `meta ? meta[KEY.LIFECYCLE] : null` in `handle.js` (`none` covers both
`null` and `undefined`, which `lifecycle == null` treats alike). -/
def Action.metaLifecycle {V : Type} (a : Action V) : Option String :=
  a.meta.bind fun m => m.lifecycle

/-- The lifecycle switch of `handle.js` followed by the unconditional
`always` pass: `LIFECYCLE.START` runs `handlers.start`; `LIFECYCLE.SUCCESS`
runs `handlers.success` then `handlers.finish`; `LIFECYCLE.FAILURE` runs
`handlers.failure` then `handlers.finish`; any other marker runs no
stage-specific handler; then `handlers.always` runs on the result. -/
def routeStages {S V : Type} (state : S) (a : Action V)
    (handlers : HandlerTable S V) (lc : String) : Except HandleErr S :=
  (if lc = LIFECYCLE.START then
    safeMap state (hlookup handlers "start") a "start"
  else if lc = LIFECYCLE.SUCCESS then
    (safeMap state (hlookup handlers "success") a "success").bind fun s1 =>
      safeMap s1 (hlookup handlers "finish") a "finish"
  else if lc = LIFECYCLE.FAILURE then
    (safeMap state (hlookup handlers "failure") a "failure").bind fun s1 =>
      safeMap s1 (hlookup handlers "finish") a "finish"
  else .ok state).bind fun s2 =>
    safeMap s2 (hlookup handlers "always") a "always"

/-- `handle.js` `handle(startingState, action, handlers)` with
`process.env.NODE_ENV` as the parameter `env`: verify the handler keys when
`env` is `'development'`; throw the usage error when the action carries no
lifecycle marker; otherwise route through the stage handlers. -/
def handle {S V : Type} (startingState : S) (a : Action V)
    (handlers : HandlerTable S V) (env : Option String) :
    Except HandleErr S :=
  (if env = some "development" then verifyHandlers handlers a
   else .ok ()).bind fun _ =>
    match a.metaLifecycle with
    | none => .error (.notPackAction a.type)
    | some lc => routeStages startingState a handlers lc

/-- The terminal action dispatched by the settlement continuation matching
an outcome: `success`'s dispatch for fulfillment, `failure`'s for
rejection. -/
def terminalAction {V : Type} (a : Action V) (tid : String) :
    Outcome V → Action V
  | .fulfilled data => successAction a tid data
  | .rejected error => failureAction a tid error

/-- Property access `meta[KEY.TRANSACTION]` of an action (when it has a meta). -/
def Action.metaTransaction {V : Type} (a : Action V) : Option String :=
  a.meta.bind fun m => m.transaction

theorem dispatchesOf_handleEventHook {V : Type} (m : Option (ActionMeta V))
    (hook : String) (arg : HookArg V) :
    dispatchesOf (handleEventHook m hook arg) = [] := by
  cases m with
  | none => rfl
  | some m =>
      simp only [handleEventHook]
      cases m.hookField hook with
      | none => rfl
      | some s =>
          cases s with
          | fnHook throws => cases throws <;> rfl
          | nonFnHook => rfl

theorem dispatched_not_mem_handleEventHook {V : Type}
    (m : Option (ActionMeta V)) (hook : String) (arg : HookArg V)
    (x : Action V) : Event.dispatched x ∉ handleEventHook m hook arg := by
  cases m with
  | none => simp [handleEventHook]
  | some m =>
      simp only [handleEventHook]
      cases m.hookField hook with
      | none => simp
      | some s =>
          cases s with
          | fnHook throws => cases throws <;> simp
          | nonFnHook => simp

theorem dispatchesOf_cons_dispatched {V : Type} (x : Action V)
    (l : List (Event V)) :
    dispatchesOf (.dispatched x :: l) = x :: dispatchesOf l := rfl

theorem dispatchesOf_append {V : Type} (l1 l2 : List (Event V)) :
    dispatchesOf (l1 ++ l2) = dispatchesOf l1 ++ dispatchesOf l2 :=
  List.filterMap_append l1 l2 _

theorem dispatchesOf_syncEvents {V : Type} (tid : String) (a : Action V) :
    dispatchesOf ((handlePromise tid a).syncEvents) = [startAction a tid] := by
  show dispatchesOf (.dispatched (startAction a tid) ::
    handleEventHook a.meta "onStart" (.val a.payload)) = [startAction a tid]
  rw [dispatchesOf_cons_dispatched, dispatchesOf_handleEventHook]

theorem dispatchesOf_settleEvents {V : Type} (tid : String) (a : Action V)
    (o : Outcome V) :
    dispatchesOf ((handlePromise tid a).settleEvents o) =
      [terminalAction a tid o] := by
  cases o with
  | fulfilled data =>
      show dispatchesOf (.dispatched (successAction a tid data) ::
          (handleEventHook a.meta "onSuccess" (.val data) ++
            handleEventHook a.meta "onFinish" (.flag true))) =
        [successAction a tid data]
      rw [dispatchesOf_cons_dispatched, dispatchesOf_append,
        dispatchesOf_handleEventHook, dispatchesOf_handleEventHook]
      rfl
  | rejected error =>
      show dispatchesOf (.dispatched (failureAction a tid error) ::
          (handleEventHook a.meta "onFailure" (.val error) ++
            handleEventHook a.meta "onFinish" (.flag false))) =
        [failureAction a tid error]
      rw [dispatchesOf_cons_dispatched, dispatchesOf_append,
        dispatchesOf_handleEventHook, dispatchesOf_handleEventHook]
      rfl

theorem middleware_intercepts {V : Type} (tid : String) (a : Action V)
    (o : Outcome V) (h : a.promise = some (.thenable o)) :
    middleware tid (some a) = .intercepted (handlePromise tid a) := by
  have hp : isPromise a.promise = true := by rw [h]; rfl
  simp [middleware, hp]

/-- Claim C1: for every action whose `promise` field is a thenable, the
middleware intercepts it and — synchronously, before the call returns and
before any settlement (`syncEvents`) — dispatches exactly one action, the
START action `{type, payload: action.payload, meta: {...action.meta,
[KEY.LIFECYCLE]: 'start', [KEY.TRANSACTION]: tid}}` for the freshly
generated identifier `tid`; no settlement-phase dispatch carries the START
marker. -/
theorem claim_C1 : ∀ (V : Type) (a : Action V) (tid : String)
    (o : Outcome V), a.promise = some (.thenable o) →
    middleware tid (some a) = .intercepted (handlePromise tid a) ∧
    dispatchesOf ((handlePromise tid a).syncEvents) =
      [{ type := a.type
         payload := a.payload
         promise := none
         error := none
         meta := some { a.meta.getD (ActionMeta.empty V) with
           lifecycle := some LIFECYCLE.START
           transaction := some tid } }] ∧
    ∀ (o2 : Outcome V) (x : Action V),
      x ∈ dispatchesOf ((handlePromise tid a).settleEvents o2) →
      x.metaLifecycle ≠ some LIFECYCLE.START := by
  intro V a tid o h
  refine ⟨middleware_intercepts tid a o h, dispatchesOf_syncEvents tid a, ?_⟩
  intro o2 x hx
  rw [dispatchesOf_settleEvents] at hx
  rcases List.mem_singleton.mp hx with rfl
  cases o2 with
  | fulfilled data =>
      simp [terminalAction, successAction, Action.metaLifecycle,
        LIFECYCLE.SUCCESS, LIFECYCLE.START]
  | rejected error =>
      simp [terminalAction, failureAction, Action.metaLifecycle,
        LIFECYCLE.FAILURE, LIFECYCLE.START]

def wAct : Action Nat :=
  { type := "LOAD", payload := none,
    promise := some (.thenable (.fulfilled (some 7))),
    error := none, meta := none }

theorem claim_C1_witness :
    dispatchesOf ((handlePromise "t1" wAct).syncEvents) =
      [{ type := "LOAD"
         payload := none
         promise := none
         error := none
         meta := some { ActionMeta.empty Nat with
           lifecycle := some LIFECYCLE.START
           transaction := some "t1" } }] :=
  (claim_C1 Nat wAct "t1" (.fulfilled (some 7)) rfl).2.1

/-- Claim C2: for every action with a thenable promise processed by the
middleware, the settlement phase dispatches exactly one action — the
SUCCESS action on fulfillment, the FAILURE action on rejection, never both
and never zero — and that terminal action carries in its meta the same
transaction identifier as the START action of the same originating
dispatch. -/
theorem claim_C2 : ∀ (V : Type) (a : Action V) (tid : String)
    (o : Outcome V), a.promise = some (.thenable o) →
    middleware tid (some a) = .intercepted (handlePromise tid a) ∧
    dispatchesOf ((handlePromise tid a).settleEvents o) =
      [terminalAction a tid o] ∧
    (terminalAction a tid o).metaLifecycle =
      some (match o with
        | .fulfilled _ => LIFECYCLE.SUCCESS
        | .rejected _ => LIFECYCLE.FAILURE) ∧
    (terminalAction a tid o).metaTransaction = some tid ∧
    (startAction a tid).metaTransaction = some tid := by
  intro V a tid o h
  refine ⟨middleware_intercepts tid a o h, dispatchesOf_settleEvents tid a o,
    ?_, ?_, ?_⟩
  · cases o <;>
      simp [terminalAction, successAction, failureAction, Action.metaLifecycle]
  · cases o <;>
      simp [terminalAction, successAction, failureAction,
        Action.metaTransaction]
  · simp [startAction, Action.metaTransaction]

theorem claim_C2_witness :
    dispatchesOf ((handlePromise "t1" wAct).settleEvents
        (.fulfilled (some 7))) =
      [terminalAction wAct "t1" (.fulfilled (some 7))] ∧
    (terminalAction wAct "t1" (.fulfilled (some 7))).metaTransaction =
      some "t1" ∧
    (startAction wAct "t1").metaTransaction = some "t1" :=
  ⟨(claim_C2 Nat wAct "t1" (.fulfilled (some 7)) rfl).2.1,
   (claim_C2 Nat wAct "t1" (.fulfilled (some 7)) rfl).2.2.2.1,
   (claim_C2 Nat wAct "t1" (.fulfilled (some 7)) rfl).2.2.2.2⟩

/-- Claim C3: when the promise of an intercepted action fulfills with
`data`, the settlement phase is, in order: the dispatch of
`{type, payload: data, meta: {...action.meta, startPayload: action.payload,
[KEY.LIFECYCLE]: 'success', [KEY.TRANSACTION]: tid}}`, then the `onSuccess`
hook invoked with `(data, getState)`, then the `onFinish` hook invoked with
`(true, getState)`; and the promise returned from the middleware call
resolves with `{payload: data}`.  The final conjunct instantiates the hook
order when both hooks are present, well-behaved functions. -/
theorem claim_C3 : ∀ (V : Type) (a : Action V) (tid : String)
    (data : Option V), a.promise = some (.thenable (.fulfilled data)) →
    (handlePromise tid a).settleEvents (.fulfilled data) =
      .dispatched (successAction a tid data) ::
        (handleEventHook a.meta "onSuccess" (.val data) ++
          handleEventHook a.meta "onFinish" (.flag true)) ∧
    successAction a tid data =
      { type := a.type
        payload := data
        promise := none
        error := none
        meta := some { a.meta.getD (ActionMeta.empty V) with
          startPayload := some a.payload
          lifecycle := some LIFECYCLE.SUCCESS
          transaction := some tid } } ∧
    (handlePromise tid a).resolution (.fulfilled data) = .payloadOnly data ∧
    ∀ (m : ActionMeta V), a.meta = some m →
      m.onSuccess = some (.fnHook false) → m.onFinish = some (.fnHook false) →
      (handlePromise tid a).settleEvents (.fulfilled data) =
        [.dispatched (successAction a tid data),
         .hookCalled "onSuccess" (.val data),
         .hookCalled "onFinish" (.flag true)] := by
  intro V a tid data _
  refine ⟨rfl, rfl, rfl, ?_⟩
  intro m hm hsucc hfin
  show Event.dispatched (successAction a tid data) ::
      (handleEventHook a.meta "onSuccess" (.val data) ++
        handleEventHook a.meta "onFinish" (.flag true)) = _
  rw [hm]
  simp [handleEventHook, ActionMeta.hookField, hsucc, hfin]

def wActS : Action Nat :=
  { type := "LOAD", payload := some 3,
    promise := some (.thenable (.fulfilled (some 7))),
    error := none,
    meta := some { ActionMeta.empty Nat with
      onSuccess := some (.fnHook false)
      onFinish := some (.fnHook false) } }

theorem claim_C3_witness :
    (handlePromise "t1" wActS).settleEvents (.fulfilled (some 7)) =
      [.dispatched (successAction wActS "t1" (some 7)),
       .hookCalled "onSuccess" (.val (some 7)),
       .hookCalled "onFinish" (.flag true)] ∧
    (handlePromise "t1" wActS).resolution (.fulfilled (some 7)) =
      .payloadOnly (some 7) :=
  ⟨(claim_C3 Nat wActS "t1" (some 7) rfl).2.2.2 _ rfl rfl rfl,
   (claim_C3 Nat wActS "t1" (some 7) rfl).2.2.1⟩

/-- Claim C4: when the promise of an intercepted action rejects with
`error`, the settlement phase is, in order: the dispatch of
`{type, payload: error, error: true, meta: {...action.meta, startPayload:
action.payload, [KEY.LIFECYCLE]: 'failure', [KEY.TRANSACTION]: tid}}`, then
the `onFailure` hook invoked with `(error, getState)`, then the `onFinish`
hook invoked with `(false, getState)`; the promise returned from the
middleware call resolves — does not reject, `Resolution` being the type of
resolution values — with `{error: true, payload: error}`. -/
theorem claim_C4 : ∀ (V : Type) (a : Action V) (tid : String)
    (error : Option V), a.promise = some (.thenable (.rejected error)) →
    (handlePromise tid a).settleEvents (.rejected error) =
      .dispatched (failureAction a tid error) ::
        (handleEventHook a.meta "onFailure" (.val error) ++
          handleEventHook a.meta "onFinish" (.flag false)) ∧
    failureAction a tid error =
      { type := a.type
        payload := error
        promise := none
        error := some true
        meta := some { a.meta.getD (ActionMeta.empty V) with
          startPayload := some a.payload
          lifecycle := some LIFECYCLE.FAILURE
          transaction := some tid } } ∧
    (handlePromise tid a).resolution (.rejected error) =
      .errorAndPayload error ∧
    ∀ (m : ActionMeta V), a.meta = some m →
      m.onFailure = some (.fnHook false) → m.onFinish = some (.fnHook false) →
      (handlePromise tid a).settleEvents (.rejected error) =
        [.dispatched (failureAction a tid error),
         .hookCalled "onFailure" (.val error),
         .hookCalled "onFinish" (.flag false)] := by
  intro V a tid error _
  refine ⟨rfl, rfl, rfl, ?_⟩
  intro m hm hfail hfin
  show Event.dispatched (failureAction a tid error) ::
      (handleEventHook a.meta "onFailure" (.val error) ++
        handleEventHook a.meta "onFinish" (.flag false)) = _
  rw [hm]
  simp [handleEventHook, ActionMeta.hookField, hfail, hfin]

def wActF : Action Nat :=
  { type := "LOAD", payload := none,
    promise := some (.thenable (.rejected (some 13))),
    error := none,
    meta := some { ActionMeta.empty Nat with
      onFailure := some (.fnHook false)
      onFinish := some (.fnHook false) } }

theorem claim_C4_witness :
    (handlePromise "t2" wActF).settleEvents (.rejected (some 13)) =
      [.dispatched (failureAction wActF "t2" (some 13)),
       .hookCalled "onFailure" (.val (some 13)),
       .hookCalled "onFinish" (.flag false)] ∧
    (handlePromise "t2" wActF).resolution (.rejected (some 13)) =
      .errorAndPayload (some 13) :=
  ⟨(claim_C4 Nat wActF "t2" (some 13) rfl).2.2.2 _ rfl rfl rfl,
   (claim_C4 Nat wActF "t2" (some 13) rfl).2.2.1⟩

/-- Claim C10: every action the middleware dispatches (the START action in
the synchronous phase, the SUCCESS/FAILURE action in the settlement phase)
is constructed without a `promise` field, so feeding it back into the
middleware fails the thenable test and takes the plain `next(action)`
pass-through path: the interceptor never re-intercepts its own output. -/
theorem claim_C10 : ∀ (V : Type) (a : Action V) (tid : String)
    (o : Outcome V) (x : Action V),
    Event.dispatched x ∈ (handlePromise tid a).syncEvents ∨
      Event.dispatched x ∈ (handlePromise tid a).settleEvents o →
    x.promise = none ∧
      ∀ (tid2 : String), middleware tid2 (some x) = .passedToNext x := by
  intro V a tid o x hx
  have hp : x.promise = none := by
    rcases hx with hx | hx
    · rcases List.mem_cons.mp hx with he | he
      · cases he
        rfl
      · exact absurd he
          (dispatched_not_mem_handleEventHook a.meta "onStart" (.val a.payload) x)
    · cases o with
      | fulfilled data =>
          rcases List.mem_cons.mp hx with he | he
          · cases he
            rfl
          · rcases List.mem_append.mp he with he | he
            · exact absurd he (dispatched_not_mem_handleEventHook a.meta
                "onSuccess" (.val data) x)
            · exact absurd he (dispatched_not_mem_handleEventHook a.meta
                "onFinish" (.flag true) x)
      | rejected error =>
          rcases List.mem_cons.mp hx with he | he
          · cases he
            rfl
          · rcases List.mem_append.mp he with he | he
            · exact absurd he (dispatched_not_mem_handleEventHook a.meta
                "onFailure" (.val error) x)
            · exact absurd he (dispatched_not_mem_handleEventHook a.meta
                "onFinish" (.flag false) x)
  refine ⟨hp, fun tid2 => ?_⟩
  have : isPromise x.promise = false := by rw [hp]; rfl
  simp [middleware, this]

theorem claim_C10_witness :
    (startAction wAct "t1").promise = none ∧
    middleware "t9" (some (startAction wAct "t1")) =
      .passedToNext (startAction wAct "t1") := by
  have h := claim_C10 Nat wAct "t1" (.fulfilled (some 7))
    (startAction wAct "t1") (Or.inl (List.mem_cons_self _ _))
  exact ⟨h.1, h.2 "t9"⟩

/-- Replace a throwing hook function by one that returns normally; leave
absent slots and non-function values alone. -/
def calmSlot {V : Type} : Option (HookSlot V) → Option (HookSlot V)
  | some (.fnHook _) => some (.fnHook false)
  | s => s

/-- Calm every hook slot of a meta object. -/
def calmMeta {V : Type} (m : ActionMeta V) : ActionMeta V :=
  { m with
    onStart := calmSlot m.onStart
    onSuccess := calmSlot m.onSuccess
    onFailure := calmSlot m.onFailure
    onFinish := calmSlot m.onFinish }

/-- Calm every hook slot of an action's meta. -/
def calmAction {V : Type} (a : Action V) : Action V :=
  { a with meta := a.meta.map calmMeta }

/-- Calm the metas recorded inside dispatched actions of an event. -/
def calmEvent {V : Type} : Event V → Event V
  | .dispatched x => .dispatched (calmAction x)
  | e => e

/-- Whether an event is the logging of an exception a hook threw. -/
def Event.isLogged {V : Type} : Event V → Bool
  | .errorLogged _ => true
  | _ => false

/-- Drop the hook-exception log entries from a trace, keeping the dispatch
and hook-invocation flow. -/
def quiet {V : Type} (es : List (Event V)) : List (Event V) :=
  es.filter fun e => ! e.isLogged

theorem hookField_calmMeta {V : Type} (m : ActionMeta V) (hook : String) :
    (calmMeta m).hookField hook = calmSlot (m.hookField hook) := by
  simp only [ActionMeta.hookField, calmMeta]
  split_ifs <;> rfl

theorem quiet_cons_dispatched {V : Type} (x : Action V)
    (l : List (Event V)) :
    quiet (.dispatched x :: l) = .dispatched x :: quiet l := rfl

theorem quiet_append {V : Type} (l1 l2 : List (Event V)) :
    quiet (l1 ++ l2) = quiet l1 ++ quiet l2 := by
  simp [quiet]

theorem quiet_map_calm_hook {V : Type} (mo : Option (ActionMeta V))
    (hook : String) (arg : HookArg V) :
    (quiet (handleEventHook mo hook arg)).map calmEvent =
      handleEventHook (mo.map calmMeta) hook arg := by
  cases mo with
  | none => rfl
  | some m =>
      show _ = handleEventHook (some (calmMeta m)) hook arg
      simp only [handleEventHook, hookField_calmMeta]
      cases m.hookField hook with
      | none => rfl
      | some s =>
          cases s with
          | fnHook throws => cases throws <;> rfl
          | nonFnHook => rfl

theorem calm_startAction {V : Type} (a : Action V) (tid : String) :
    calmAction (startAction a tid) = startAction (calmAction a) tid := by
  cases a with
  | mk t p pr e m => cases m <;> rfl

theorem calm_successAction {V : Type} (a : Action V) (tid : String)
    (data : Option V) :
    calmAction (successAction a tid data) =
      successAction (calmAction a) tid data := by
  cases a with
  | mk t p pr e m => cases m <;> rfl

theorem calm_failureAction {V : Type} (a : Action V) (tid : String)
    (error : Option V) :
    calmAction (failureAction a tid error) =
      failureAction (calmAction a) tid error := by
  cases a with
  | mk t p pr e m => cases m <;> rfl

/-- Claim C9: caller-supplied hooks are isolated.  A slot holding a
non-function value is skipped without any event; a function slot that
throws produces its invocation followed by a `console.error` log and
nothing else; and the whole middleware run of an action whose hooks throw
is — after discarding the log entries, and calming the hook slots recorded
inside the dispatched actions' metas — identical in dispatches, hook
invocations, order, and resolution of the returned promise to the run of
the same action whose hooks all return normally. -/
theorem claim_C9 :
    (∀ (V : Type) (m : ActionMeta V) (hook : String) (arg : HookArg V),
      m.hookField hook = some .nonFnHook →
      handleEventHook (some m) hook arg = []) ∧
    (∀ (V : Type) (m : ActionMeta V) (hook : String) (arg : HookArg V),
      m.hookField hook = some (.fnHook true) →
      handleEventHook (some m) hook arg =
        [.hookCalled hook arg, .errorLogged hook]) ∧
    (∀ (V : Type) (a : Action V) (tid : String),
      (handlePromise tid (calmAction a)).syncEvents =
        (quiet ((handlePromise tid a).syncEvents)).map calmEvent) ∧
    (∀ (V : Type) (a : Action V) (tid : String) (o : Outcome V),
      (handlePromise tid (calmAction a)).settleEvents o =
        (quiet ((handlePromise tid a).settleEvents o)).map calmEvent) ∧
    (∀ (V : Type) (a : Action V) (tid : String) (o : Outcome V),
      (handlePromise tid (calmAction a)).resolution o =
        (handlePromise tid a).resolution o) := by
  refine ⟨?_, ?_, ?_, ?_, ?_⟩
  · intro V m hook arg hm
    simp [handleEventHook, hm]
  · intro V m hook arg hm
    simp [handleEventHook, hm]
  · intro V a tid
    have hsync : (handlePromise tid a).syncEvents =
        Event.dispatched (startAction a tid) ::
          handleEventHook a.meta "onStart" (.val a.payload) := rfl
    show Event.dispatched (startAction (calmAction a) tid) ::
        handleEventHook (a.meta.map calmMeta) "onStart" (.val a.payload) = _
    rw [hsync, quiet_cons_dispatched, List.map_cons, quiet_map_calm_hook]
    show _ = Event.dispatched (calmAction (startAction a tid)) :: _
    rw [calm_startAction]
  · intro V a tid o
    cases o with
    | fulfilled data =>
        have hs : (handlePromise tid a).settleEvents (.fulfilled data) =
            Event.dispatched (successAction a tid data) ::
              (handleEventHook a.meta "onSuccess" (.val data) ++
                handleEventHook a.meta "onFinish" (.flag true)) := rfl
        show Event.dispatched (successAction (calmAction a) tid data) ::
            (handleEventHook (a.meta.map calmMeta) "onSuccess" (.val data) ++
              handleEventHook (a.meta.map calmMeta) "onFinish" (.flag true)) = _
        rw [hs, quiet_cons_dispatched, List.map_cons, quiet_append,
          List.map_append, quiet_map_calm_hook, quiet_map_calm_hook]
        show _ = Event.dispatched (calmAction (successAction a tid data)) :: _
        rw [calm_successAction]
    | rejected error =>
        have hs : (handlePromise tid a).settleEvents (.rejected error) =
            Event.dispatched (failureAction a tid error) ::
              (handleEventHook a.meta "onFailure" (.val error) ++
                handleEventHook a.meta "onFinish" (.flag false)) := rfl
        show Event.dispatched (failureAction (calmAction a) tid error) ::
            (handleEventHook (a.meta.map calmMeta) "onFailure" (.val error) ++
              handleEventHook (a.meta.map calmMeta) "onFinish" (.flag false)) = _
        rw [hs, quiet_cons_dispatched, List.map_cons, quiet_append,
          List.map_append, quiet_map_calm_hook, quiet_map_calm_hook]
        show _ = Event.dispatched (calmAction (failureAction a tid error)) :: _
        rw [calm_failureAction]
  · intro V a tid o
    rfl

def wMetaNonFn : ActionMeta Nat :=
  { ActionMeta.empty Nat with onStart := some .nonFnHook }

def wMetaThrow : ActionMeta Nat :=
  { ActionMeta.empty Nat with onStart := some (.fnHook true) }

def wActT : Action Nat :=
  { type := "LOAD", payload := some 2,
    promise := some (.thenable (.fulfilled (some 7))),
    error := none, meta := some wMetaThrow }

theorem claim_C9_witness :
    handleEventHook (some wMetaNonFn) "onStart" (.val (some 5)) = [] ∧
    handleEventHook (some wMetaThrow) "onStart" (.val (some 5)) =
      [.hookCalled "onStart" (.val (some 5)), .errorLogged "onStart"] ∧
    (handlePromise "t1" (calmAction wActT)).syncEvents =
      (quiet ((handlePromise "t1" wActT).syncEvents)).map calmEvent ∧
    (handlePromise "t1" (calmAction wActT)).resolution
        (.fulfilled (some 7)) =
      (handlePromise "t1" wActT).resolution (.fulfilled (some 7)) :=
  ⟨claim_C9.1 Nat wMetaNonFn "onStart" (.val (some 5)) rfl,
   claim_C9.2.1 Nat wMetaThrow "onStart" (.val (some 5)) rfl,
   claim_C9.2.2.1 Nat wActT "t1",
   claim_C9.2.2.2.2 Nat wActT "t1" (.fulfilled (some 7))⟩

theorem verifyHandlers_ok {S V : Type} (hs : HandlerTable S V) (a : Action V)
    (h : ∀ k ∈ hs.map Prod.fst, k ∈ VALID_KEYS) :
    verifyHandlers hs a = .ok () := by
  induction hs with
  | nil => rfl
  | cons p rest ih =>
      obtain ⟨k, v⟩ := p
      have hk : k ∈ VALID_KEYS := h k (by simp)
      simp only [verifyHandlers, if_pos hk]
      exact ih fun k2 hk2 => h k2 (by simp [hk2])

theorem verifyHandlers_err {S V : Type} (hs : HandlerTable S V) (a : Action V)
    (h : ∃ k ∈ hs.map Prod.fst, k ∉ VALID_KEYS) :
    ∃ k, k ∈ hs.map Prod.fst ∧ k ∉ VALID_KEYS ∧
      verifyHandlers hs a = .error (.invalidKey k a.type) := by
  induction hs with
  | nil =>
      obtain ⟨k, hk, _⟩ := h
      simp at hk
  | cons p rest ih =>
      obtain ⟨k0, v⟩ := p
      by_cases hv : k0 ∈ VALID_KEYS
      · obtain ⟨k, hk, hnv⟩ := h
        simp only [List.map_cons, List.mem_cons] at hk
        rcases hk with rfl | hk2
        · exact absurd hv hnv
        · obtain ⟨k3, hk3, hnv3, herr⟩ := ih ⟨k, hk2, hnv⟩
          exact ⟨k3, by simp [hk3], hnv3,
            by simp only [verifyHandlers, if_pos hv]; exact herr⟩
      · exact ⟨k0, by simp, hv, by simp only [verifyHandlers, if_neg hv]⟩

/-- The object `{id: 1}` in spec scenario 3. -/
structure SceneVal where
  id : Nat
deriving DecidableEq

/-- The reducer state `{loading, data}` of spec scenario 3 (`data := none`
is `data: null`). -/
structure SceneState where
  loading : Bool
  data : Option SceneVal
deriving DecidableEq

/-- Scenario 3's handler table `{start: s => ({...s, loading: true}),
finish: s => ({...s, loading: false}),
success: (s, a) => ({...s, data: a.payload})}`. -/
def scene3Handlers : HandlerTable SceneState SceneVal :=
  [("start", .hfn fun s _ => some { s with loading := true }),
   ("finish", .hfn fun s _ => some { s with loading := false }),
   ("success", .hfn fun s a => some { s with data := a.payload })]

/-- Scenario 3's SUCCESS action with `payload: {id: 1}`. -/
def scene3Action : Action SceneVal :=
  { type := "LOAD", payload := some { id := 1 }, promise := none,
    error := none,
    meta := some { ActionMeta.empty SceneVal with
      lifecycle := some LIFECYCLE.SUCCESS } }

/-- Claim C5: for every lifecycle-tagged action, `handle` applies the stage
handlers in the fixed order — `start` alone for the 'start' marker;
`success` then `finish` for 'success'; `failure` then `finish` for
'failure'; no stage-specific handler for any other marker — and in every
case `always` last (whenever key validation passes or is skipped).  In
particular scenario 3's table applied to a SUCCESS action with payload
`{id: 1}` and state `{loading: true, data: null}` yields
`{loading: false, data: {id: 1}}`. -/
theorem claim_C5 :
    (∀ (S V : Type) (s : S) (a : Action V) (hs : HandlerTable S V)
      (env : Option String) (lc : String),
      a.metaLifecycle = some lc →
      (∀ k ∈ hs.map Prod.fst, k ∈ VALID_KEYS) →
      handle s a hs env =
        (if lc = LIFECYCLE.START then
          safeMap s (hlookup hs "start") a "start"
        else if lc = LIFECYCLE.SUCCESS then
          (safeMap s (hlookup hs "success") a "success").bind fun s1 =>
            safeMap s1 (hlookup hs "finish") a "finish"
        else if lc = LIFECYCLE.FAILURE then
          (safeMap s (hlookup hs "failure") a "failure").bind fun s1 =>
            safeMap s1 (hlookup hs "finish") a "finish"
        else .ok s).bind fun s2 =>
          safeMap s2 (hlookup hs "always") a "always") ∧
    handle { loading := true, data := none : SceneState } scene3Action
        scene3Handlers none =
      .ok { loading := false, data := some { id := 1 } } := by
  constructor
  · intro S V s a hs env lc hlc hkeys
    have hv : (if env = some "development" then verifyHandlers hs a
        else .ok ()) = .ok () := by
      split_ifs with h
      · exact verifyHandlers_ok hs a hkeys
      · rfl
    simp only [handle, hv, hlc, Except.bind, routeStages]
  · rfl

theorem claim_C5_witness :
    handle { loading := true, data := none : SceneState } scene3Action
        scene3Handlers (some "development") =
      .ok { loading := false, data := some { id := 1 } } :=
  (claim_C5.1 SceneState SceneVal { loading := true, data := none }
    scene3Action scene3Handlers (some "development") LIFECYCLE.SUCCESS rfl
    (by decide)).trans rfl

/-- An action tagged with the 'start' lifecycle marker, action type `T`. -/
def startTagged : Action Nat :=
  { type := "T", payload := none, promise := none, error := none,
    meta := some { ActionMeta.empty Nat with
      lifecycle := some LIFECYCLE.START } }

/-- A handler table whose only key is the invalid `fail`. -/
def failKeyTable : HandlerTable Nat Nat :=
  [("fail", .hfn fun s _ => some s)]

/-- Counterexample to claim C6 as stated: with `NODE_ENV = 'test'` — a
non-production build that is not `'development'` — `handle` runs the
handlers of a table containing the invalid key `fail` and returns a state
normally; no configuration error is raised.  The source validates only
when `process.env.NODE_ENV === 'development'`. -/
theorem claim_C6_counterexample :
    "fail" ∉ VALID_KEYS ∧
    (some "test" : Option String) ≠ some "production" ∧
    (some "test" : Option String) ≠ some "development" ∧
    handle (0 : Nat) startTagged failKeyTable (some "test") = .ok 0 :=
  ⟨by decide, by decide, by decide, rfl⟩

/-- Claim C6 as amended: whenever handlers run in a development build
(`NODE_ENV === 'development'`), every key of the handler table is validated
against {start, success, failure, finish, always}, and a table containing
any other key fails fast with a configuration error naming an offending key
and the action type. -/
theorem claim_C6 : ∀ (S V : Type) (s : S) (a : Action V)
    (hs : HandlerTable S V),
    (∃ k ∈ hs.map Prod.fst, k ∉ VALID_KEYS) →
    ∃ k, k ∈ hs.map Prod.fst ∧ k ∉ VALID_KEYS ∧
      handle s a hs (some "development") = .error (.invalidKey k a.type) := by
  intro S V s a hs h
  obtain ⟨k, hk, hnv, herr⟩ := verifyHandlers_err hs a h
  exact ⟨k, hk, hnv, by simp [handle, herr, Except.bind]⟩

theorem claim_C6_witness :
    ∃ k, k ∈ failKeyTable.map Prod.fst ∧ k ∉ VALID_KEYS ∧
      handle (0 : Nat) startTagged failKeyTable (some "development") =
        .error (.invalidKey k "T") :=
  claim_C6 Nat Nat 0 startTagged failKeyTable ⟨"fail", by decide, by decide⟩

/-- Claim C7: for each handler slot consulted during a `handle` call (every
consultation goes through `safeMap`): an `undefined` slot — the key absent,
or present with value `undefined` — passes the state through unchanged; a
non-function value fails with the configuration error naming the slot and
the action type; a function returning `undefined` fails with the
configuration error; otherwise the function's result becomes the new
state. -/
theorem claim_C7 : ∀ (S V : Type) (s : S) (a : Action V) (name : String),
    safeMap s (none : Option (HSlot S V)) a name = .ok s ∧
    safeMap s (some .hundef) a name = .ok s ∧
    (∀ tname, safeMap s (some (.hnonFn tname)) a name =
      .error (.expectedFunction name tname a.type)) ∧
    (∀ f, f s a = none → safeMap s (some (.hfn f)) a name =
      .error (.expectedNewState name a.type)) ∧
    (∀ f s2, f s a = some s2 → safeMap s (some (.hfn f)) a name =
      .ok s2) := by
  intro S V s a name
  refine ⟨rfl, rfl, fun tname => rfl, fun f hf => ?_, fun f s2 hf => ?_⟩ <;>
    simp [safeMap, hf]

/-- An action with no `meta` at all (so no lifecycle marker), type `T`. -/
def plainAct : Action Nat :=
  { type := "T", payload := none, promise := none, error := none,
    meta := none }

theorem claim_C7_witness :
    safeMap (0 : Nat) (none : Option (HSlot Nat Nat)) plainAct "start" =
      .ok 0 ∧
    safeMap (0 : Nat) (some .hundef) plainAct "start" = .ok 0 ∧
    safeMap (0 : Nat) (some (.hnonFn "number")) plainAct "start" =
      .error (.expectedFunction "start" "number" "T") ∧
    safeMap (0 : Nat) (some (.hfn fun _ _ => none)) plainAct "start" =
      .error (.expectedNewState "start" "T") ∧
    safeMap (0 : Nat) (some (.hfn fun s _ => some (s + 1))) plainAct
      "start" = .ok 1 :=
  ⟨(claim_C7 Nat Nat 0 plainAct "start").1,
   (claim_C7 Nat Nat 0 plainAct "start").2.1,
   (claim_C7 Nat Nat 0 plainAct "start").2.2.1 "number",
   (claim_C7 Nat Nat 0 plainAct "start").2.2.2.1 _ rfl,
   (claim_C7 Nat Nat 0 plainAct "start").2.2.2.2 _ 1 rfl⟩

/-- Counterexample to claim C8 as stated: for an action lacking the
lifecycle marker it is not true that `handle` fails with the usage error
naming the action type *regardless of the handler table supplied* — in a
development build, a table with an invalid key makes `handle` fail with the
key-validation configuration error instead, since `verifyHandlers` runs
before the lifecycle check. -/
theorem claim_C8_counterexample :
    plainAct.metaLifecycle = none ∧
    handle (0 : Nat) plainAct failKeyTable (some "development") =
      .error (.invalidKey "fail" "T") ∧
    HandleErr.invalidKey "fail" "T" ≠ HandleErr.notPackAction "T" :=
  ⟨rfl, rfl, by decide⟩

/-- Claim C8 as amended: for every action whose meta lacks the lifecycle
marker (including actions with no meta at all), `handle` always fails — it
never silently returns a state — and the failure is the usage error naming
the action type whenever the build is not development or the handler table
has only valid keys (in a development build an invalid handler key fails
with the key-validation error first). -/
theorem claim_C8 : ∀ (S V : Type) (s : S) (a : Action V)
    (hs : HandlerTable S V) (env : Option String),
    a.metaLifecycle = none →
    (∃ e, handle s a hs env = .error e) ∧
    ((env ≠ some "development" ∨ ∀ k ∈ hs.map Prod.fst, k ∈ VALID_KEYS) →
      handle s a hs env = .error (.notPackAction a.type)) := by
  intro S V s a hs env hlc
  constructor
  · by_cases hd : env = some "development"
    · cases hv : verifyHandlers hs a with
      | ok u =>
          cases u
          exact ⟨.notPackAction a.type,
            by simp [handle, hd, hv, hlc, Except.bind]⟩
      | error e => exact ⟨e, by simp [handle, hd, hv, Except.bind]⟩
    · exact ⟨.notPackAction a.type, by simp [handle, hd, hlc, Except.bind]⟩
  · intro h
    rcases h with hd | hkeys
    · simp [handle, hd, hlc, Except.bind]
    · have hv := verifyHandlers_ok hs a hkeys
      by_cases hd : env = some "development" <;>
        simp [handle, hd, hv, hlc, Except.bind]

theorem claim_C8_witness :
    (∃ e, handle (0 : Nat) plainAct ([] : HandlerTable Nat Nat) none =
      .error e) ∧
    handle (0 : Nat) plainAct ([] : HandlerTable Nat Nat) none =
      .error (.notPackAction "T") :=
  ⟨(claim_C8 Nat Nat 0 plainAct [] none rfl).1,
   (claim_C8 Nat Nat 0 plainAct [] none rfl).2 (Or.inl (by decide))⟩

end ReduxPack
